import Mathlib

/-
Verification of the metric-derivation core of the health-dashboard pipeline.

Shallow embedding conventions:
* calendar dates are natural numbers (the mental-health module uses the
  order-preserving yyyymmdd encoding, since it only ever compares dates;
  the strength/volume/reconciler modules use day numbers, since they do
  day arithmetic);
* float values are rationals; a missing value (pandas NaN/NaT) is `none`,
  and arithmetic on possibly-missing values propagates `none` the way
  float arithmetic propagates NaN;
* a pandas exception is the `Except.error` branch of an `Except`.
-/

/- ---------------------------------------------------------------------
Section 1: missing-value (NaN) arithmetic and aggregation helpers.
--------------------------------------------------------------------- -/

/-- NaN-propagating addition: `x + y` is NaN when either operand is NaN. -/
def oadd (x y : Option ℚ) : Option ℚ :=
  match x, y with
  | some a, some b => some (a + b)
  | _, _ => none

/-- NaN-propagating multiplication. -/
def omul (x y : Option ℚ) : Option ℚ :=
  match x, y with
  | some a, some b => some (a * b)
  | _, _ => none

/-- NaN-propagating division by a constant. -/
def odivC (x : Option ℚ) (c : ℚ) : Option ℚ := x.map (· / c)

/-- Maximum of a list of possibly-missing values, skipping the missing
ones (pandas `max`/`cummax`/`rolling(...).max` all skip NaN); `none` when
no value is present. -/
def oMaxList : List (Option ℚ) → Option ℚ
  | [] => none
  | none :: rest => oMaxList rest
  | some v :: rest =>
    match oMaxList rest with
    | none => some v
    | some m => some (max v m)

/-- Minimum of a list of naturals, `none` on the empty list
(embeds pandas `Series.min`, whose result on an empty column is NaN/NaT). -/
def listMin : List ℕ → Option ℕ
  | [] => none
  | x :: xs =>
    match listMin xs with
    | none => some x
    | some m => some (min x m)

/-- Maximum of a list of naturals, `none` on the empty list. -/
def listMax : List ℕ → Option ℕ
  | [] => none
  | x :: xs =>
    match listMax xs with
    | none => some x
    | some m => some (max x m)

/- ---------------------------------------------------------------------
Section 2: Mental Health Scoring Engine
(src/prepare_data/process_mental_health.py, MentalHealthDataProcessor).

Dates use the order-preserving yyyymmdd number encoding; the scoring code
only ever compares dates (`Series.between`), never does date arithmetic.
A score row is a date plus a (total) assignment of factor names to
possibly-missing values, i.e. one row of the cleaned merged frame.
--------------------------------------------------------------------- -/

/-- One entry of a `vars_info` dictionary: `(min_val, max_val, weight,
transformation)`, as in `calculate_score`. -/
structure FactorSpec where
  min_val : ℚ
  max_val : ℚ
  weight : ℚ
  transformation : ℚ → ℚ

/-- A score definition: the ordered `vars_info` dictionary of
`calculate_score`, factor name to spec. -/
abbrev VarsInfo := List (String × FactorSpec)

/-- One data row as seen by `calculate_score`: its date and its factor
columns (a missing/NaN factor value is `none`). -/
structure ScoreRow where
  date : ℕ
  factors : String → Option ℚ

/-- The fixed-log factor names (`main_vars` in the source, line 235). -/
def main_vars : List String := ["elevated", "depressed", "anxiety"]

/-- `available_factors`: count of non-NA factors of the definition in the
row (source line 228). -/
def available_factors (vars_info : VarsInfo) (row : ScoreRow) : ℕ :=
  (vars_info.filter (fun v => (row.factors v.1).isSome)).length

/-- `main_zero_check` (source lines 236-238): every fixed-log factor of the
definition equals exactly 0.  pandas `.eq(0)` is false on NaN, and
`.all(axis=1)` over an empty column selection is vacuously true. -/
def main_zero_check (vars_info : VarsInfo) (row : ScoreRow) : Bool :=
  (vars_info.filter (fun v => decide (v.1 ∈ main_vars))).all
    (fun v => row.factors v.1 == some 0)

/-- `custom_one_check` (source lines 239-241): every non-fixed factor of
the definition equals exactly 1. -/
def custom_one_check (vars_info : VarsInfo) (row : ScoreRow) : Bool :=
  (vars_info.filter (fun v => !(decide (v.1 ∈ main_vars)))).all
    (fun v => row.factors v.1 == some 1)

/-- `uniform_data` (source line 257). -/
def uniform_data (vars_info : VarsInfo) (row : ScoreRow) : Bool :=
  main_zero_check vars_info row && custom_one_check vars_info row

/-- The per-factor transformed and weighted contribution, with NA kept as
NA (source lines 268-272) and then filled with 0 (lines 275-276); the two
steps compose to this value. -/
def transformed_value (s : FactorSpec) (x : Option ℚ) : ℚ :=
  match x with
  | some v => s.transformation v * s.weight
  | none => 0

/-- `score_sum` (source lines 279-281): sum of the transformed columns. -/
def score_sum (vars_info : VarsInfo) (row : ScoreRow) : ℚ :=
  (vars_info.map (fun v => transformed_value v.2 (row.factors v.1))).sum

/-- `min_possible_score` (source lines 286-293, 302). -/
def min_possible_score (vars_info : VarsInfo) : ℚ :=
  (vars_info.map (fun v =>
    if 0 < v.2.weight then v.2.transformation v.2.min_val * v.2.weight
    else v.2.transformation v.2.max_val * v.2.weight)).sum

/-- `max_possible_score` (source lines 294-301, 303). -/
def max_possible_score (vars_info : VarsInfo) : ℚ :=
  (vars_info.map (fun v =>
    if 0 < v.2.weight then v.2.transformation v.2.max_val * v.2.weight
    else v.2.transformation v.2.min_val * v.2.weight)).sum

/-- The exclusion mask the source builds at lines 217-225: the row's date
falls in one of the `exclude_dates` ranges (`Series.between` is inclusive
on both endpoints). -/
def inExcludedRange (exclude_dates : List (ℕ × ℕ)) (d : ℕ) : Bool :=
  exclude_dates.any (fun p => decide (p.1 ≤ d) && decide (d ≤ p.2))

/-- The default `exclude_dates` argument of `calculate_score`
(source line 195): ("2000-01-01", "2021-12-01") and
("2023-06-16", "2023-09-20"), in yyyymmdd encoding. -/
def exclude_dates_default : List (ℕ × ℕ) :=
  [(20000101, 20211201), (20230616, 20230920)]

/-- `valid_rows` as finally assigned at source lines 263-265.

NOTE (faithful to a slip in the source): lines 213-225 accumulate the
date-range exclusion mask into `valid_rows`, but line 263 then REASSIGNS
`valid_rows = (available_factors / total_factors >= cutoff_proportion) &
(~uniform_data)` with `=` instead of `&=`, discarding the exclusion mask.
The exclusion therefore has no effect on the returned scores. -/
def valid_row (vars_info : VarsInfo) (cutoff_proportion : ℚ)
    (row : ScoreRow) : Bool :=
  decide ((available_factors vars_info row : ℚ) / (vars_info.length : ℚ)
    ≥ cutoff_proportion) && !(uniform_data vars_info row)

/-- `calculate_score` (source lines 190-321) restricted to one row: the
value of the returned score array at that row (`np.nan`, i.e. `none`, for
rows failing `valid_rows`; source line 313).  Per the note on
`valid_row`, the `exclude_dates` parameter ends up unused. -/
def calculate_score (vars_info : VarsInfo) (cutoff_proportion : ℚ)
    (exclude_dates : List (ℕ × ℕ)) (rescale : Bool) (row : ScoreRow) :
    Option ℚ :=
  let _ := inExcludedRange exclude_dates row.date
  if valid_row vars_info cutoff_proportion row then
    if rescale then
      some ((score_sum vars_info row - min_possible_score vars_info) /
        (max_possible_score vars_info - min_possible_score vars_info)
        * 200 - 100)
    else
      some (score_sum vars_info row)
  else
    none

/-- `life_satisfaction_vars` (source lines 346-357), literal values. -/
def life_satisfaction_vars : VarsInfo :=
  [("self-acceptance", ⟨1, 4, 1, fun x => x⟩),
   ("liberty", ⟨1, 4, 2, fun x => x⟩),
   ("value_alignment", ⟨1, 4, 2, fun x => x⟩),
   ("health", ⟨1, 4, 2, fun x => x⟩),
   ("security", ⟨1, 4, 2, fun x => x⟩),
   ("relationship_satisfaction", ⟨1, 4, 2, fun x => x⟩),
   ("integrity", ⟨1, 4, 2, fun x => x⟩),
   ("optimism", ⟨1, 4, 1, fun x => x⟩),
   ("shame", ⟨1, 4, -1, fun x => x ^ 2⟩),
   ("suicidality", ⟨1, 2, -4, fun x => x⟩)]

/-- `work_satisfaction_vars` (source lines 358-369), literal values. -/
def work_satisfaction_vars : VarsInfo :=
  [("energy", ⟨1, 4, 1, fun x => x⟩),
   ("mental_clarity", ⟨1, 4, 4 / 2, fun x => x ^ 2⟩),
   ("value_alignment", ⟨1, 4, 2 / 2, fun x => x ^ 2⟩),
   ("security", ⟨1, 4, 1, fun x => x⟩),
   ("relationship_satisfaction", ⟨1, 4, 1, fun x => x⟩),
   ("liberty", ⟨1, 4, 2, fun x => x⟩),
   ("achievement", ⟨1, 4, 4, fun x => x⟩),
   ("learning", ⟨1, 4, 1 / 2, fun x => x⟩),
   ("work_depth", ⟨1, 4, 1 / 2, fun x => x ^ 2⟩),
   ("professional_mastery", ⟨1, 4, 2, fun x => x⟩)]

/- ---------------------------------------------------------------------
Section 3: Strength Metric Engine
(src/prepare_data/process_data.py, WeightliftingDataProcessor).

Dates are day numbers (days since an arbitrary epoch): this module does
day arithmetic (the trailing 90-calendar-day rolling window).

Modelling notes, pandas semantics made explicit:
* `groupby` aggregations are key-indexed functions here; pandas sorts the
  group keys, but every use below (max / membership / lookup) is
  order-independent, so key order is not modelled;
* the merge of the per-(exercise, date) metric table back onto the set
  rows (lines 322-328) joins on the unique key (exercise_name, date) and
  therefore equals evaluating the per-key metric functions at each row's
  key; the clashing `one_rep_max_y` column is dropped (lines 331-333);
* `rolling(window="90D")` with the default closed="right" aggregates,
  for the entry at date d, over group entries with date in [d-89, d],
  skipping NaN (min_periods defaults to 1 for offset windows);
* `cummax()` at a non-NaN entry is the max of the non-NaN group values up
  to and including it; at a NaN entry it is NaN;
* the final `sort_values` calls (lines 295, 336, 353) only reorder rows;
  every property verified below is row-order independent, so the sorts
  are not modelled;
* the dead "Compute cumulative maxima" block of `calculate_1RM` (lines
  408-411) writes a new column onto a groupby copy and calls
  `data.update(group)`, which ignores columns absent from `data`; it has
  no effect and is not modelled.
--------------------------------------------------------------------- -/

/-- Character-list prefix test (for the `"(Barbell)" in exercise` check). -/
def strStarts : List Char → List Char → Bool
  | [], _ => true
  | _ :: _, [] => false
  | p :: ps, c :: cs => p == c && strStarts ps cs

/-- Character-list substring test. -/
def strHasSub (p : List Char) : List Char → Bool
  | [] => strStarts p []
  | c :: cs => strStarts p (c :: cs) || strHasSub p cs

/-- Python `"(Barbell)" in exercise` (source line 387). -/
def isBarbellName (s : String) : Bool :=
  strHasSub "(Barbell)".toList s.toList

/-- One raw strength-log set row (after `clean_exercise_data`): date,
exercise name (possibly null), set order, weight and reps (possibly NaN). -/
structure ExerciseRow where
  date : ℕ
  exercise_name : Option String
  set_order : ℕ
  weight : Option ℚ
  reps : Option ℚ
deriving DecidableEq

/-- A set row after `calculate_1RM`: the exercise-name column has been
null-filled with "Unknown" (source line 384) and `one_rep_max` computed. -/
structure Calc1Row where
  date : ℕ
  exercise_name : String
  set_order : ℕ
  weight : Option ℚ
  reps : Option ℚ
  one_rep_max : Option ℚ
deriving DecidableEq

/-- The fixed list of unweighted (bodyweight-driven) exercises
(source lines 365-381), literal values. -/
def unweighted_exercises : List String :=
  ["Chin Up", "Pull Up", "Wide Pull Up", "Back Extension", "Ab Coaster",
   "Battle Ropes", "Press Up", "Chest Dip", "Triceps Dip",
   "Curved Hack Squat", "Bulgarian Split Squat (Plate-Loaded)",
   "Knee Raise (Captain\x27s Chair)", "Half-Hack Squat",
   "Goblet Squat (Kettlebell)", "Lunge (Dumbbell)"]

/-- `data["exercise_name"].fillna("Unknown")` applied to one row
(source line 384). -/
def fillnaName (r : ExerciseRow) : String := r.exercise_name.getD "Unknown"

/-- `all_exercises = data["exercise_name"].unique()` (source line 385),
on the null-filled name column. -/
def all_exercises (data : List ExerciseRow) : List String :=
  (data.map fillnaName).dedup

/-- `barbell_exercises` (source lines 386-388): the observed exercise
names containing "(Barbell)". -/
def barbell_exercises (data : List ExerciseRow) : List String :=
  (all_exercises data).filter isBarbellName

/-- The left join of a set row against the daily body-mass table
(`pd.merge(exercise_data, weight_data, on="date", how="left")`, source
line 344); `none` when the date has no body-mass row. -/
def lookupBodyMass (weight_data : List (ℕ × ℚ)) (d : ℕ) : Option ℚ :=
  (weight_data.find? (fun p => p.1 == d)).map (·.2)

/-- The `one_rep_max` value `calculate_1RM` computes for one row
(source lines 391-405): barbell-named exercises get 44 added to the
weight; unweighted exercises use body mass instead of weight; either way
the Epley-style factor `1 + reps/30` applies.  NaN operands (missing
weight, reps or body mass) propagate to a NaN result. -/
def one_rep_max_of (weight_data : List (ℕ × ℚ)) (data : List ExerciseRow)
    (r : ExerciseRow) : Option ℚ :=
  let name := fillnaName r
  let w := if name ∈ barbell_exercises data then oadd r.weight (some 44)
           else r.weight
  if name ∈ unweighted_exercises then
    omul (lookupBodyMass weight_data r.date)
      (oadd (some 1) (odivC r.reps 30))
  else
    omul w (oadd (some 1) (odivC r.reps 30))

/-- `calculate_1RM` (source lines 360-413): fill null exercise names with
"Unknown" and compute `one_rep_max` row by row. -/
def calculate_1RM (weight_data : List (ℕ × ℚ)) (data : List ExerciseRow) :
    List Calc1Row :=
  data.map (fun r =>
    ⟨r.date, fillnaName r, r.set_order, r.weight, r.reps,
     one_rep_max_of weight_data data r⟩)

/-- The daily max of `one_rep_max` for one (exercise_name, date) group key
(`data.groupby(["exercise_name", "date"])["one_rep_max"].max()`, source
lines 298-300), skipping NaN. -/
def dailyMaxVal (rows : List Calc1Row) (n : String) (d : ℕ) : Option ℚ :=
  oMaxList ((rows.filter
    (fun r => r.exercise_name == n && r.date == d)).map (·.one_rep_max))

/-- The distinct dates on which exercise `n` appears (the date axis of the
`daily_max` table for group `n`). -/
def groupDates (rows : List Calc1Row) (n : String) : List ℕ :=
  ((rows.filter (fun r => r.exercise_name == n)).map (·.date)).dedup

/-- `cummax_one_rep_max` of the daily-max series at key (n, d)
(`daily_max.groupby("exercise_name")["one_rep_max"].cummax()`, source
lines 303-305): NaN at a NaN entry, otherwise the max of the non-NaN
daily maxima of the group at dates up to and including d. -/
def cummaxVal (rows : List Calc1Row) (n : String) (d : ℕ) : Option ℚ :=
  match dailyMaxVal rows n d with
  | none => none
  | some _ =>
    oMaxList (((groupDates rows n).filter
      (fun e => decide (e ≤ d))).map (dailyMaxVal rows n))

/-- `rolling_90d_max` of the daily-max series at key (n, d)
(`daily_max.groupby("exercise_name")["one_rep_max"].rolling(window="90D").max()`,
source lines 311-316): the max of the non-NaN daily maxima of the group
at dates in the trailing window [d-89, d]; NaN when the window holds no
valid value. -/
def rollingVal (rows : List Calc1Row) (n : String) (d : ℕ) : Option ℚ :=
  oMaxList (((groupDates rows n).filter
    (fun e => decide (d ≤ e + 89) && decide (e ≤ d))).map
    (dailyMaxVal rows n))

/-- A scored set row as produced by `calculate_derivative_metrics`, with
the columns that survive `filter_exercise_data` (which drops `set_order`,
`weight` and `body_mass`; source line 425). -/
structure ScoredRow where
  date : ℕ
  exercise_name : String
  reps : Option ℚ
  one_rep_max : Option ℚ
  cummax_one_rep_max : Option ℚ
  rolling_90d_max : Option ℚ
deriving DecidableEq

/-- `calculate_derivative_metrics` (source lines 290-338): compute the
per-(exercise, date) daily max, its running max and its 90-day rolling
max, and merge those back onto every set row by its (exercise_name, date)
key. -/
def calculate_derivative_metrics (rows : List Calc1Row) : List ScoredRow :=
  rows.map (fun r =>
    ⟨r.date, r.exercise_name, r.reps, r.one_rep_max,
     cummaxVal rows r.exercise_name r.date,
     rollingVal rows r.exercise_name r.date⟩)

/-- The row predicate of `filter_exercise_data` (source lines 415-427):
keep rows with a non-null exercise name (vacuous after the fillna in
`calculate_1RM`) and `one_rep_max > 0` (NaN compares false). -/
def keepRow (r : ScoredRow) : Bool :=
  match r.one_rep_max with
  | some v => decide (0 < v)
  | none => false

/-- `filter_exercise_data` (source lines 415-427). -/
def filter_exercise_data (rows : List ScoredRow) : List ScoredRow :=
  rows.filter keepRow

/-- `wrangle_weightlifting_data` (source lines 340-358): join body mass,
compute 1RM, derive the cumulative/rolling metrics, and filter.  The
`sort_values` steps only reorder rows and are not modelled. -/
def wrangle_weightlifting_data (weight_data : List (ℕ × ℚ))
    (exercise_data : List ExerciseRow) : List ScoredRow :=
  filter_exercise_data
    (calculate_derivative_metrics (calculate_1RM weight_data exercise_data))

/- ---------------------------------------------------------------------
Section 4: Volume Aggregator
(src/prepare_data/perform_calculations.py, VolumeDataProcessor).
--------------------------------------------------------------------- -/

/-- The kind of exception a reconciler call can raise.  The source never
defines an `EmptyInputError`; on an empty input the `pd.date_range` call
receives NaT/NaN bounds and pandas raises a plain `ValueError`
("Neither start nor end can be NaT").  Both kinds appear here so that
statements can distinguish them. -/
inductive PdError
  | emptyInputError
  | valueError
deriving DecidableEq

/-- `wrangle_volume_data` (perform_calculations.py lines 8-26):
`weightlifting_data.groupby("date").agg({"one_rep_max": "sum"})` — one
row per distinct observed date carrying the sum of `one_rep_max` over the
sets of that date (pandas `sum` skips NaN, hence `getD 0`). -/
def wrangle_volume_data (rows : List ScoredRow) : List (ℕ × ℚ) :=
  ((rows.map (·.date)).dedup).map (fun d =>
    (d, ((rows.filter (fun r => r.date == d)).map
      (fun r => r.one_rep_max.getD 0)).sum))

/-- First-match lookup of a date key in a (date, value) table (the
left-merge of the complete date range against the grouped table, whose
date keys are unique). -/
def tblLookup (d : ℕ) : List (ℕ × ℚ) → Option ℚ
  | [] => none
  | (k, v) :: rest => if k = d then some v else tblLookup d rest

/-- `fill_missing_dates` (perform_calculations.py lines 28-48) with the
default `date_column`/`fill_column` and no `new_column`: build the
complete date range [min, max], left-merge the data onto it, and fill
missing `one_rep_max` with 0.  On an empty input `min()`/`max()` are
NaT/NaN and `pd.date_range` raises a `ValueError` (not an
`EmptyInputError`, which does not exist in the source). -/
def fill_missing_dates (data : List (ℕ × ℚ)) :
    Except PdError (List (ℕ × ℚ)) :=
  match listMin (data.map (·.1)), listMax (data.map (·.1)) with
  | some mn, some mx =>
    .ok (((List.range (mx + 1 - mn)).map (fun i => mn + i)).map
      (fun d => (d, (tblLookup d data).getD 0)))
  | _, _ => .error .valueError

/-- `process_volume_data` (perform_calculations.py lines 50-56). -/
def process_volume_data (rows : List ScoredRow) :
    Except PdError (List (ℕ × ℚ)) :=
  fill_missing_dates (wrangle_volume_data rows)

/- ---------------------------------------------------------------------
Section 5: Date-Series Reconciler, `join_dates`
(src/prepare_data/process_data.py, HealthDataProcessor.join_dates,
lines 46-110), single-metric call path (multiple_metrics=False — the
path exercised by `wrangle_weight_data`).

`join_dates` is modelled with explicit state passing to expose its frame
effect: it returns the pair (input table after the call, result).  The
date column of the input holds either `datetime.date` objects (as
produced by `clean_exercise_data` / `process_record_data`, `.rawDate`)
or pandas Timestamps (`.ts`); line 104,
`data["date"] = pd.to_datetime(data["date"])`, overwrites that column of
the caller's frame in place, converting every entry to a Timestamp.
-/

/-- A value of the date column: a plain `datetime.date` or a pandas
Timestamp, both carrying the same underlying day number. -/
inductive DateVal
  | rawDate (d : ℕ)
  | ts (d : ℕ)
deriving DecidableEq

/-- `pd.to_datetime` on one date-column entry. -/
def toDatetime : DateVal → DateVal
  | .rawDate d => .ts d
  | .ts d => .ts d

/-- The day number a date-column entry denotes (its sort key — Python
compares `datetime.date` objects and Timestamps by calendar order). -/
def dayOf : DateVal → ℕ
  | .rawDate d => d
  | .ts d => d

/-- First-match lookup of the row whose date column equals `ts d`
(the `pd.merge(date_seq, data, how="left", on="date")` of line 108,
restricted to one date of `date_seq`). -/
def lookupTs {α : Type} (d : ℕ) : List (DateVal × α) → Option α
  | [] => none
  | (k, v) :: rest => if k = .ts d then some v else lookupTs d rest

/-- `join_dates` (process_data.py lines 46-110, multiple_metrics=False),
as a state-passing function: `(data2, result)` where `data2` is the
caller's frame after the call.  Steps, in source order: take the min of
the raw date column (line 77); build the date sequence up to `today`
(lines 78-81; on an empty input the min is NaT and `pd.date_range`
raises `ValueError` before anything is mutated); convert the input's
date column to Timestamps IN PLACE (line 104); left-merge the date
sequence with the converted input (line 108). -/
def join_dates {α : Type} (today : ℕ) (data : List (DateVal × α)) :
    List (DateVal × α) × Except PdError (List (ℕ × Option α)) :=
  match listMin (data.map (fun p => dayOf p.1)) with
  | none => (data, .error .valueError)
  | some mn =>
    let dateSeq : List ℕ := (List.range (today + 1 - mn)).map (fun i => mn + i)
    let data2 := data.map (fun p => (toDatetime p.1, p.2))
    (data2, .ok (dateSeq.map (fun d => (d, lookupTs d data2))))

/- ---------------------------------------------------------------------
Helper lemmas about the aggregation functions.
--------------------------------------------------------------------- -/
/-- The value of a defined list-maximum is attained by a list element. -/
theorem oMaxList_attain {L : List (Option ℚ)} {a : ℚ}
    (h : oMaxList L = some a) : some a ∈ L := by
  induction L with
  | nil => simp [oMaxList] at h
  | cons x rest ih =>
    match x with
    | none =>
      simp only [oMaxList] at h
      exact List.mem_cons_of_mem _ (ih h)
    | some v =>
      simp only [oMaxList] at h
      cases hrest : oMaxList rest with
      | none =>
        rw [hrest] at h
        simp at h
        exact h ▸ List.mem_cons_self _ _
      | some m =>
        rw [hrest] at h
        simp at h
        rcases le_total v m with hvm | hmv
        · rw [max_eq_right hvm] at h
          exact List.mem_cons_of_mem _ (ih (h ▸ hrest))
        · rw [max_eq_left hmv] at h
          exact h ▸ List.mem_cons_self _ _

/-- Every defined list element is bounded by the (then defined) list maximum. -/
theorem oMaxList_mem_le {L : List (Option ℚ)} {v : ℚ}
    (h : some v ∈ L) : ∃ a, oMaxList L = some a ∧ v ≤ a := by
  induction L with
  | nil => simp at h
  | cons x rest ih =>
    rcases List.mem_cons.mp h with hx | hmem
    · subst hx
      simp only [oMaxList]
      cases hrest : oMaxList rest with
      | none => exact ⟨v, rfl, le_refl v⟩
      | some m => exact ⟨max v m, rfl, le_max_left v m⟩
    · rcases ih hmem with ⟨a, ha, hva⟩
      match x with
      | none => exact ⟨a, by simp only [oMaxList]; exact ha, hva⟩
      | some w =>
        simp only [oMaxList]
        rw [ha]
        exact ⟨max w a, rfl, le_trans hva (le_max_right w a)⟩

/-- Monotonicity of the list maximum under (membership) inclusion. -/
theorem oMaxList_mono {L M : List (Option ℚ)} {a : ℚ}
    (hsub : ∀ x, x ∈ L → x ∈ M) (h : oMaxList L = some a) :
    ∃ b, oMaxList M = some b ∧ a ≤ b :=
  oMaxList_mem_le (hsub _ (oMaxList_attain h))

/-- Two lists with mutually dominated defined elements have the same maximum. -/
theorem oMaxList_eq_of_mutual {L M : List (Option ℚ)}
    (h1 : ∀ v : ℚ, some v ∈ L → ∃ w : ℚ, some w ∈ M ∧ v ≤ w)
    (h2 : ∀ v : ℚ, some v ∈ M → ∃ w : ℚ, some w ∈ L ∧ v ≤ w) :
    oMaxList L = oMaxList M := by
  cases hL : oMaxList L with
  | none =>
    cases hM : oMaxList M with
    | none => rfl
    | some b =>
      rcases h2 b (oMaxList_attain hM) with ⟨w, hwL, _⟩
      rcases oMaxList_mem_le hwL with ⟨a, ha, _⟩
      rw [hL] at ha
      exact absurd ha (by simp)
  | some a =>
    rcases h1 a (oMaxList_attain hL) with ⟨w, hwM, haw⟩
    rcases oMaxList_mem_le hwM with ⟨b, hb, hwb⟩
    rw [hb]
    rcases h2 b (oMaxList_attain hb) with ⟨u, huL, hbu⟩
    rcases oMaxList_mem_le huL with ⟨a2, ha2, hua2⟩
    rw [hL] at ha2
    have haa : a2 = a := by injection ha2.symm
    have : b ≤ a := le_trans hbu (haa ▸ hua2)
    have : a = b := le_antisymm (le_trans haw hwb) this
    rw [this]


theorem listMin_eq_none_iff {l : List ℕ} : listMin l = none ↔ l = [] := by
  cases l with
  | nil => simp [listMin]
  | cons x xs =>
    simp only [listMin]
    cases listMin xs <;> simp

theorem listMax_eq_none_iff {l : List ℕ} : listMax l = none ↔ l = [] := by
  cases l with
  | nil => simp [listMax]
  | cons x xs =>
    simp only [listMax]
    cases listMax xs <;> simp

theorem listMin_mem {l : List ℕ} : ∀ {m : ℕ}, listMin l = some m → m ∈ l := by
  induction l with
  | nil => intro m h; simp [listMin] at h
  | cons x xs ih =>
    intro m h
    simp only [listMin] at h
    cases hxs : listMin xs with
    | none =>
      rw [hxs] at h
      simp at h
      simp [h]
    | some m2 =>
      rw [hxs] at h
      simp at h
      rcases min_choice x m2 with hc | hc <;> rw [hc] at h
      · simp [h]
      · exact List.mem_cons_of_mem _ (h ▸ ih hxs)

theorem listMin_le {l : List ℕ} : ∀ {m x : ℕ}, listMin l = some m →
    x ∈ l → m ≤ x := by
  induction l with
  | nil => intro m x _ hx; simp at hx
  | cons y ys ih =>
    intro m x h hx
    simp only [listMin] at h
    rcases List.mem_cons.mp hx with hxy | hmem
    · subst hxy
      cases hys : listMin ys with
      | none => rw [hys] at h; simp at h; omega
      | some m2 => rw [hys] at h; simp at h; subst h; exact min_le_left x m2
    · cases hys : listMin ys with
      | none =>
        rw [listMin_eq_none_iff] at hys
        subst hys
        simp at hmem
      | some m2 =>
        rw [hys] at h
        simp at h
        subst h
        exact le_trans (min_le_right y m2) (ih hys hmem)

theorem listMax_mem {l : List ℕ} : ∀ {m : ℕ}, listMax l = some m → m ∈ l := by
  induction l with
  | nil => intro m h; simp [listMax] at h
  | cons x xs ih =>
    intro m h
    simp only [listMax] at h
    cases hxs : listMax xs with
    | none =>
      rw [hxs] at h
      simp at h
      simp [h]
    | some m2 =>
      rw [hxs] at h
      simp at h
      rcases max_choice x m2 with hc | hc <;> rw [hc] at h
      · simp [h]
      · exact List.mem_cons_of_mem _ (h ▸ ih hxs)

theorem listMax_ge {l : List ℕ} : ∀ {m x : ℕ}, listMax l = some m →
    x ∈ l → x ≤ m := by
  induction l with
  | nil => intro m x _ hx; simp at hx
  | cons y ys ih =>
    intro m x h hx
    simp only [listMax] at h
    rcases List.mem_cons.mp hx with hxy | hmem
    · subst hxy
      cases hys : listMax ys with
      | none => rw [hys] at h; simp at h; omega
      | some m2 => rw [hys] at h; simp at h; subst h; exact le_max_left x m2
    · cases hys : listMax ys with
      | none =>
        rw [listMax_eq_none_iff] at hys
        subst hys
        simp at hmem
      | some m2 =>
        rw [hys] at h
        simp at h
        subst h
        exact le_trans (ih hys hmem) (le_max_right y m2)

/-- Minimum is determined by the membership set of the list. -/
theorem listMin_eq_of_mem_iff {l1 l2 : List ℕ}
    (h : ∀ x, x ∈ l1 ↔ x ∈ l2) : listMin l1 = listMin l2 := by
  cases h1 : listMin l1 with
  | none =>
    rw [listMin_eq_none_iff] at h1
    subst h1
    cases h2 : listMin l2 with
    | none => rfl
    | some m =>
      have := listMin_mem h2
      rw [← h] at this
      simp at this
  | some m =>
    cases h2 : listMin l2 with
    | none =>
      rw [listMin_eq_none_iff] at h2
      subst h2
      have := listMin_mem h1
      rw [h] at this
      simp at this
    | some m2 =>
      have hm : m ∈ l2 := (h m).mp (listMin_mem h1)
      have hm2 : m2 ∈ l1 := (h m2).mpr (listMin_mem h2)
      exact congrArg some (le_antisymm (listMin_le h1 hm2) (listMin_le h2 hm))

/-- Maximum is determined by the membership set of the list. -/
theorem listMax_eq_of_mem_iff {l1 l2 : List ℕ}
    (h : ∀ x, x ∈ l1 ↔ x ∈ l2) : listMax l1 = listMax l2 := by
  cases h1 : listMax l1 with
  | none =>
    rw [listMax_eq_none_iff] at h1
    subst h1
    cases h2 : listMax l2 with
    | none => rfl
    | some m =>
      have := listMax_mem h2
      rw [← h] at this
      simp at this
  | some m =>
    cases h2 : listMax l2 with
    | none =>
      rw [listMax_eq_none_iff] at h2
      subst h2
      have := listMax_mem h1
      rw [h] at this
      simp at this
    | some m2 =>
      have hm : m ∈ l2 := (h m).mp (listMax_mem h1)
      have hm2 : m2 ∈ l1 := (h m2).mpr (listMax_mem h2)
      exact congrArg some (le_antisymm (listMax_ge h2 hm) (listMax_ge h1 hm2))


/-- At a row whose every factor sits at its weight-favorable extreme, the
raw score equals the maximal achievable raw score. -/
theorem score_sum_eq_max (vars_info : VarsInfo) (row : ScoreRow)
    (hf : ∀ p ∈ vars_info, row.factors p.1 =
      some (if 0 < p.2.weight then p.2.max_val else p.2.min_val)) :
    score_sum vars_info row = max_possible_score vars_info := by
  unfold score_sum max_possible_score
  congr 1
  apply List.map_congr_left
  intro p hp
  rw [hf p hp]
  by_cases hw : 0 < p.2.weight
  · simp [transformed_value, hw]
  · simp [transformed_value, hw]

/-- At a row whose every factor sits at its weight-unfavorable extreme,
the raw score equals the minimal achievable raw score. -/
theorem score_sum_eq_min (vars_info : VarsInfo) (row : ScoreRow)
    (hf : ∀ p ∈ vars_info, row.factors p.1 =
      some (if 0 < p.2.weight then p.2.min_val else p.2.max_val)) :
    score_sum vars_info row = min_possible_score vars_info := by
  unfold score_sum min_possible_score
  congr 1
  apply List.map_congr_left
  intro p hp
  rw [hf p hp]
  by_cases hw : 0 < p.2.weight
  · simp [transformed_value, hw]
  · simp [transformed_value, hw]


/-- For an observed row, the barbell-list membership test of
`calculate_1RM` coincides with the "(Barbell)" substring test, because
the row's own (null-filled) name is always among the observed names. -/
theorem mem_barbell_iff (data : List ExerciseRow)
    (r : ExerciseRow) (hr : r ∈ data) :
    fillnaName r ∈ barbell_exercises data ↔
      isBarbellName (fillnaName r) = true := by
  unfold barbell_exercises
  rw [List.mem_filter]
  constructor
  · exact fun h => h.2
  · intro h
    refine ⟨?_, h⟩
    unfold all_exercises
    rw [List.mem_dedup]
    exact List.mem_map.mpr ⟨r, hr, rfl⟩

/-- Every row of the engine's output is the metrics-annotated image of a
`calculate_1RM` row that passed the filter. -/
theorem mem_wrangle {wt : List (ℕ × ℚ)} {data : List ExerciseRow}
    {r : ScoredRow} (hr : r ∈ wrangle_weightlifting_data wt data) :
    ∃ s ∈ calculate_1RM wt data,
      r = ⟨s.date, s.exercise_name, s.reps, s.one_rep_max,
           cummaxVal (calculate_1RM wt data) s.exercise_name s.date,
           rollingVal (calculate_1RM wt data) s.exercise_name s.date⟩ ∧
      keepRow r = true := by
  unfold wrangle_weightlifting_data filter_exercise_data at hr
  have hk := (List.mem_filter.mp hr).2
  have hm := (List.mem_filter.mp hr).1
  unfold calculate_derivative_metrics at hm
  rcases List.mem_map.mp hm with ⟨s, hs, hrs⟩
  exact ⟨s, hs, hrs.symm, hk⟩

/-- A row passing the filter has a defined, strictly positive 1RM. -/
theorem keepRow_some {r : ScoredRow} (h : keepRow r = true) :
    ∃ v : ℚ, r.one_rep_max = some v ∧ 0 < v := by
  unfold keepRow at h
  cases ho : r.one_rep_max with
  | none => rw [ho] at h; simp at h
  | some v => rw [ho] at h; simp at h; exact ⟨v, rfl, h⟩

/-- The daily max at the key of a row with a defined 1RM is defined and
dominates that 1RM. -/
theorem dailyMax_defined {rows : List Calc1Row} {s : Calc1Row} {v : ℚ}
    (hs : s ∈ rows) (hv : s.one_rep_max = some v) :
    ∃ a : ℚ, dailyMaxVal rows s.exercise_name s.date = some a ∧ v ≤ a := by
  apply oMaxList_mem_le
  rw [List.mem_map]
  refine ⟨s, ?_, hv⟩
  rw [List.mem_filter]
  exact ⟨hs, by simp⟩

/-- A row's date belongs to its exercise group's date axis. -/
theorem mem_groupDates {rows : List Calc1Row} {s : Calc1Row}
    (hs : s ∈ rows) : s.date ∈ groupDates rows s.exercise_name := by
  unfold groupDates
  rw [List.mem_dedup, List.mem_map]
  refine ⟨s, ?_, rfl⟩
  rw [List.mem_filter]
  exact ⟨hs, by simp⟩

/-- The running-max aggregate up to any date `d` at or after a row with a
defined 1RM is itself defined. -/
theorem cummaxVal_defined {rows : List Calc1Row} {s : Calc1Row} {v : ℚ}
    (hs : s ∈ rows) (hv : s.one_rep_max = some v) {d : ℕ}
    (hd : s.date ≤ d) :
    ∃ a c : ℚ, dailyMaxVal rows s.exercise_name s.date = some a ∧
      oMaxList (((groupDates rows s.exercise_name).filter
        (fun e => decide (e ≤ d))).map
        (dailyMaxVal rows s.exercise_name)) = some c ∧ a ≤ c := by
  rcases dailyMax_defined hs hv with ⟨a, ha, hva⟩
  have hmem : some a ∈ ((groupDates rows s.exercise_name).filter
      (fun e => decide (e ≤ d))).map (dailyMaxVal rows s.exercise_name) := by
    rw [List.mem_map]
    refine ⟨s.date, ?_, ha⟩
    rw [List.mem_filter]
    exact ⟨mem_groupDates hs, by simpa using hd⟩
  rcases oMaxList_mem_le hmem with ⟨c, hc, hac⟩
  exact ⟨a, c, ha, hc, hac⟩

/-- Concrete evaluation of the full strength pipeline on a single set row
with a NULL exercise name (weight 100, reps 5): the name is filled with
"Unknown", the 1RM is 100 * (1 + 5/30) = 350/3 > 0, and the row SURVIVES
the final filter. -/
theorem wrangle_eval_unknown :
    wrangle_weightlifting_data [] [⟨0, none, 1, some 100, some 5⟩] =
      [⟨0, "Unknown", some 5, some (350/3), some (350/3), some (350/3)⟩] := by
  have h1 : one_rep_max_of [] [⟨0, none, 1, some 100, some 5⟩]
      ⟨0, none, 1, some 100, some 5⟩ = some (350/3) := by
    unfold one_rep_max_of
    rw [if_neg (by decide :
      ¬ (fillnaName ⟨0, none, 1, some 100, some 5⟩ ∈ unweighted_exercises))]
    rw [if_neg (by decide :
      ¬ (fillnaName ⟨0, none, 1, some 100, some 5⟩ ∈
        barbell_exercises [⟨0, none, 1, some 100, some 5⟩]))]
    norm_num [omul, oadd, odivC]
  norm_num [wrangle_weightlifting_data, filter_exercise_data,
    calculate_derivative_metrics, calculate_1RM, keepRow, cummaxVal,
    rollingVal, dailyMaxVal, groupDates, h1, fillnaName,
    oMaxList, omul, oadd, odivC]

/-- Concrete evaluation of the full strength pipeline on two "Leg Press"
sets on consecutive days (1RMs 200 then 220). -/
theorem wrangle_eval_two :
    wrangle_weightlifting_data []
      [⟨1, some "Leg Press", 1, some 100, some 30⟩,
       ⟨2, some "Leg Press", 1, some 110, some 30⟩] =
      [⟨1, "Leg Press", some 30, some 200, some 200, some 200⟩,
       ⟨2, "Leg Press", some 30, some 220, some 220, some 220⟩] := by
  have h1 : one_rep_max_of []
      [⟨1, some "Leg Press", 1, some 100, some 30⟩,
       ⟨2, some "Leg Press", 1, some 110, some 30⟩]
      ⟨1, some "Leg Press", 1, some 100, some 30⟩ = some 200 := by
    unfold one_rep_max_of
    rw [if_neg (by decide :
      ¬ (fillnaName ⟨1, some "Leg Press", 1, some 100, some 30⟩ ∈
        unweighted_exercises))]
    rw [if_neg (by decide :
      ¬ (fillnaName ⟨1, some "Leg Press", 1, some 100, some 30⟩ ∈
        barbell_exercises
          [⟨1, some "Leg Press", 1, some 100, some 30⟩,
           ⟨2, some "Leg Press", 1, some 110, some 30⟩]))]
    norm_num [omul, oadd, odivC]
  have h2 : one_rep_max_of []
      [⟨1, some "Leg Press", 1, some 100, some 30⟩,
       ⟨2, some "Leg Press", 1, some 110, some 30⟩]
      ⟨2, some "Leg Press", 1, some 110, some 30⟩ = some 220 := by
    unfold one_rep_max_of
    rw [if_neg (by decide :
      ¬ (fillnaName ⟨2, some "Leg Press", 1, some 110, some 30⟩ ∈
        unweighted_exercises))]
    rw [if_neg (by decide :
      ¬ (fillnaName ⟨2, some "Leg Press", 1, some 110, some 30⟩ ∈
        barbell_exercises
          [⟨1, some "Leg Press", 1, some 100, some 30⟩,
           ⟨2, some "Leg Press", 1, some 110, some 30⟩]))]
    norm_num [omul, oadd, odivC]
  norm_num [wrangle_weightlifting_data, filter_exercise_data,
    calculate_derivative_metrics, calculate_1RM, keepRow, cummaxVal,
    rollingVal, dailyMaxVal, groupDates, h1, h2, fillnaName,
    oMaxList, max_def]


/-- Lookup in a keyed table built from a key list: defined exactly on the
keys, with the tabulated value. -/
theorem tblLookup_keyed (f : ℕ → ℚ) (ds : List ℕ) (d : ℕ) :
    tblLookup d (ds.map (fun k => (k, f k))) =
      if d ∈ ds then some (f d) else none := by
  induction ds with
  | nil => simp [tblLookup]
  | cons k ks ih =>
    simp only [List.map_cons, tblLookup]
    by_cases hk : k = d
    · subst hk
      simp
    · rw [if_neg hk, ih]
      by_cases hd : d ∈ ks
      · rw [if_pos hd, if_pos (List.mem_cons_of_mem _ hd)]
      · rw [if_neg hd, if_neg ?_]
        rw [List.mem_cons]
        rintro (h | h)
        · exact hk h.symm
        · exact hd h

/-- The date keys of the grouped volume table are the distinct observed
dates. -/
theorem volume_keys (rows : List ScoredRow) :
    (wrangle_volume_data rows).map (fun p => p.1) =
      ((rows.map (fun r => r.date)).dedup) := by
  unfold wrangle_volume_data
  rw [List.map_map]
  exact List.map_id' _


/- ---------------------------------------------------------------------
Claim theorems.
--------------------------------------------------------------------- -/

/-- Claim C1 (code bug witness): a row whose date 2021-06-15 lies inside
the excluded range ("2000-01-01", "2021-12-01"), with every factor of the
life_satisfaction definition present (value 2, non-degenerate, cutoff 1.0
satisfied), still receives a DEFINED score from `calculate_score` — the
source computes the exclusion mask but then overwrites `valid_rows` at
line 263, so the exclusion never takes effect, contradicting both the
claim and the function's own docstring. -/
theorem c1_excluded_date_still_scored :
    inExcludedRange exclude_dates_default 20210615 = true ∧
    (calculate_score life_satisfaction_vars 1 exclude_dates_default true
      ⟨20210615, fun _ => some 2⟩).isSome = true := by
  constructor
  · decide
  · have h1 : available_factors life_satisfaction_vars
        ⟨20210615, fun _ => some 2⟩ = 10 := by decide
    have h2 : uniform_data life_satisfaction_vars
        ⟨20210615, fun _ => some 2⟩ = false := by decide
    have hv : valid_row life_satisfaction_vars 1
        ⟨20210615, fun _ => some 2⟩ = true := by
      unfold valid_row
      rw [h1, h2]
      norm_num [life_satisfaction_vars]
    simp [calculate_score, hv]

/-- Claim C8: for any `ScoreDefinition` evaluated with rescale=True, a
valid row with every factor at its weight-favorable extreme (max endpoint
for positive weight, min endpoint otherwise) scores exactly 100, and a
valid row with every factor at its weight-unfavorable extreme scores
exactly -100, provided the achievable score range is non-degenerate. -/
theorem c8_rescale_extremes (vars_info : VarsInfo) (cutoff : ℚ)
    (excl : List (ℕ × ℕ)) (r1 r2 : ScoreRow)
    (hne : max_possible_score vars_info ≠ min_possible_score vars_info)
    (hv1 : valid_row vars_info cutoff r1 = true)
    (hv2 : valid_row vars_info cutoff r2 = true)
    (hf1 : ∀ p ∈ vars_info, r1.factors p.1 =
      some (if 0 < p.2.weight then p.2.max_val else p.2.min_val))
    (hf2 : ∀ p ∈ vars_info, r2.factors p.1 =
      some (if 0 < p.2.weight then p.2.min_val else p.2.max_val)) :
    calculate_score vars_info cutoff excl true r1 = some 100 ∧
    calculate_score vars_info cutoff excl true r2 = some (-100) := by
  constructor
  · simp only [calculate_score, hv1, if_true]
    rw [score_sum_eq_max vars_info r1 hf1]
    rw [div_self (sub_ne_zero.mpr hne)]
    norm_num
  · simp only [calculate_score, hv2, if_true]
    rw [score_sum_eq_min vars_info r2 hf2]
    rw [sub_self, zero_div]
    norm_num

/-- Witness for C8: a concrete two-factor definition (weights 1 and -1,
identity transforms, range [1,4]) with its favorable-extreme row scoring
100 and its unfavorable-extreme row scoring -100. -/
theorem c8_rescale_extremes_witness :
    calculate_score
      [("f", ⟨1, 4, 1, fun x => x⟩), ("g", ⟨1, 4, -1, fun x => x⟩)]
      1 exclude_dates_default true
      ⟨20220101, fun n => if n = "f" then some 4 else some 1⟩ = some 100 ∧
    calculate_score
      [("f", ⟨1, 4, 1, fun x => x⟩), ("g", ⟨1, 4, -1, fun x => x⟩)]
      1 exclude_dates_default true
      ⟨20220101, fun n => if n = "f" then some 1 else some 4⟩ =
      some (-100) := by
  apply c8_rescale_extremes
  · norm_num [max_possible_score, min_possible_score]
  · have h1 : available_factors
        [("f", (⟨1, 4, 1, fun x => x⟩ : FactorSpec)), ("g", ⟨1, 4, -1, fun x => x⟩)]
        ⟨20220101, fun n => if n = "f" then some 4 else some 1⟩ = 2 := by decide
    have h2 : uniform_data
        [("f", (⟨1, 4, 1, fun x => x⟩ : FactorSpec)), ("g", ⟨1, 4, -1, fun x => x⟩)]
        ⟨20220101, fun n => if n = "f" then some 4 else some 1⟩ = false := by decide
    unfold valid_row
    rw [h1, h2]
    norm_num
  · have h1 : available_factors
        [("f", (⟨1, 4, 1, fun x => x⟩ : FactorSpec)), ("g", ⟨1, 4, -1, fun x => x⟩)]
        ⟨20220101, fun n => if n = "f" then some 1 else some 4⟩ = 2 := by decide
    have h2 : uniform_data
        [("f", (⟨1, 4, 1, fun x => x⟩ : FactorSpec)), ("g", ⟨1, 4, -1, fun x => x⟩)]
        ⟨20220101, fun n => if n = "f" then some 1 else some 4⟩ = false := by decide
    unfold valid_row
    rw [h1, h2]
    norm_num
  · intro p hp
    simp only [List.mem_cons, List.mem_singleton] at hp
    rcases hp with h | h | h
    · subst h; norm_num
    · subst h
      norm_num
      decide
    · simp at h
  · intro p hp
    simp only [List.mem_cons, List.mem_singleton] at hp
    rcases hp with h | h | h
    · subst h; norm_num
    · subst h
      norm_num
      decide
    · simp at h

/-- Claim C10: for a score definition none of whose factors is a
fixed-log factor (elevated/depressed/anxiety) — as for life_satisfaction
and work_satisfaction — the fixed-factors-all-zero half of the
degenerate-row test is vacuously true, so a row whose every factor of
the definition equals exactly 1 gets an undefined score, for every
cutoff, exclusion list and rescale flag. -/
theorem c10_all_ones_row_undefined (vars_info : VarsInfo) (cutoff : ℚ)
    (excl : List (ℕ × ℕ)) (rescale : Bool) (row : ScoreRow)
    (hmain : ∀ p ∈ vars_info, p.1 ∉ main_vars)
    (hone : ∀ p ∈ vars_info, row.factors p.1 = some 1) :
    calculate_score vars_info cutoff excl rescale row = none := by
  have hmz : main_zero_check vars_info row = true := by
    unfold main_zero_check
    have hnil : vars_info.filter (fun v => decide (v.1 ∈ main_vars)) = [] := by
      rw [List.filter_eq_nil_iff]
      intro p hp
      simpa using hmain p hp
    rw [hnil]
    rfl
  have hco : custom_one_check vars_info row = true := by
    unfold custom_one_check
    rw [List.all_eq_true]
    intro p hp
    rw [hone p (List.mem_filter.mp hp).1]
    simp
  have hu : uniform_data vars_info row = true := by
    unfold uniform_data
    rw [hmz, hco]
    rfl
  have hv : valid_row vars_info cutoff row = false := by
    unfold valid_row
    rw [hu]
    simp
  simp only [calculate_score, hv, if_false]
  rfl

/-- Witness for C10: the literal life_satisfaction definition (which has
no fixed-log factor) on a row dated outside every excluded range, all
factors present and equal to 1 (cutoff 1.0 satisfied), scores NaN. -/
theorem c10_all_ones_row_undefined_witness :
    calculate_score life_satisfaction_vars 1 exclude_dates_default true
      ⟨20220505, fun _ => some 1⟩ = none := by
  apply c10_all_ones_row_undefined
  · decide
  · intro p hp
    rfl

/-- Claim C3 (counterexample): the claim says a row whose exercise_name
was null in the input is dropped from the Strength Metric Engine's final
output.  In the code `calculate_1RM` fills null names with "Unknown"
BEFORE `filter_exercise_data` runs, so the notna filter is vacuous: the
single null-named input row below (weight 100, reps 5) survives into the
output under the name "Unknown", which is also not an exercise name
present in the input. -/
theorem c3_null_name_row_survives :
    (wrangle_weightlifting_data [] [⟨0, none, 1, some 100, some 5⟩]).map
      (fun r => r.exercise_name) = ["Unknown"] := by
  rw [wrangle_eval_unknown]
  rfl

/-- Claim C3 (amended): every row of the Strength Metric Engine's final
output has a defined, strictly positive one_rep_max (rows with
one_rep_max ≤ 0 or NaN are dropped); the null/empty-name half of the
original claim fails, as null names are renamed "Unknown" and kept. -/
theorem c3_output_one_rep_max_positive (wt : List (ℕ × ℚ))
    (data : List ExerciseRow) (r : ScoredRow)
    (hr : r ∈ wrangle_weightlifting_data wt data) :
    ∃ v : ℚ, r.one_rep_max = some v ∧ 0 < v := by
  unfold wrangle_weightlifting_data filter_exercise_data at hr
  exact keepRow_some (List.mem_filter.mp hr).2

/-- Witness for the amended C3 on a concrete output row. -/
theorem c3_output_one_rep_max_positive_witness :
    ∃ v : ℚ,
      (⟨0, "Unknown", some 5, some (350/3), some (350/3), some (350/3)⟩ :
        ScoredRow).one_rep_max = some v ∧ 0 < v :=
  c3_output_one_rep_max_positive [] [⟨0, none, 1, some 100, some 5⟩] _
    (by rw [wrangle_eval_unknown]; exact List.mem_singleton.mpr rfl)

/-- Claim C4: per set, an unweighted-list exercise gets
one_rep_max = body_mass * (1 + reps/30); otherwise the effective weight
is weight + 44 for a "(Barbell)"-named exercise and weight as logged
otherwise, with one_rep_max = effective_weight * (1 + reps/30).  In
particular weight=100, reps=5 yields 100 * (1 + 5/30) on a non-barbell
non-unweighted exercise and (100+44) * (1+5/30) = 168 on a barbell-named
one.  (NaN operands propagate, per the Option arithmetic.) -/
theorem c4_one_rep_max_formula (weight_data : List (ℕ × ℚ))
    (data : List ExerciseRow) (r : ExerciseRow) (hr : r ∈ data) :
    (one_rep_max_of weight_data data r =
      if fillnaName r ∈ unweighted_exercises then
        omul (lookupBodyMass weight_data r.date)
          (oadd (some 1) (odivC r.reps 30))
      else if isBarbellName (fillnaName r) then
        omul (oadd r.weight (some 44)) (oadd (some 1) (odivC r.reps 30))
      else
        omul r.weight (oadd (some 1) (odivC r.reps 30)))
    ∧ (fillnaName r ∉ unweighted_exercises →
        isBarbellName (fillnaName r) = false →
        r.weight = some 100 → r.reps = some 5 →
        one_rep_max_of weight_data data r = some (100 * (1 + 5 / 30)))
    ∧ (fillnaName r ∉ unweighted_exercises →
        isBarbellName (fillnaName r) = true →
        r.weight = some 100 → r.reps = some 5 →
        one_rep_max_of weight_data data r = some ((100 + 44) * (1 + 5 / 30)))
    ∧ ((100 : ℚ) + 44) * (1 + 5 / 30) = 168 := by
  have hbb := mem_barbell_iff data r hr
  have hmain : one_rep_max_of weight_data data r =
      if fillnaName r ∈ unweighted_exercises then
        omul (lookupBodyMass weight_data r.date)
          (oadd (some 1) (odivC r.reps 30))
      else if isBarbellName (fillnaName r) then
        omul (oadd r.weight (some 44)) (oadd (some 1) (odivC r.reps 30))
      else
        omul r.weight (oadd (some 1) (odivC r.reps 30)) := by
    unfold one_rep_max_of
    by_cases hu : fillnaName r ∈ unweighted_exercises
    · rw [if_pos hu, if_pos hu]
    · rw [if_neg hu, if_neg hu]
      by_cases hb : isBarbellName (fillnaName r) = true
      · rw [if_pos (hbb.mpr hb), if_pos hb]
      · rw [if_neg (fun hmem => hb (hbb.mp hmem)),
          if_neg (by simpa using hb)]
  refine ⟨hmain, ?_, ?_, by norm_num⟩
  · intro hu hb hw hreps
    rw [hmain, if_neg hu, hb, if_neg (by simp), hw, hreps]
    simp [omul, oadd, odivC]
  · intro hu hb hw hreps
    rw [hmain, if_neg hu, hb, if_pos rfl, hw, hreps]
    simp [omul, oadd, odivC]

/-- Witness for C4: a barbell-named set with weight 100, reps 5 evaluates
to (100+44) * (1+5/30). -/
theorem c4_one_rep_max_formula_witness :
    one_rep_max_of []
      [⟨0, some "Squat (Barbell)", 1, some 100, some 5⟩,
       ⟨0, some "Leg Press", 2, some 100, some 5⟩]
      ⟨0, some "Squat (Barbell)", 1, some 100, some 5⟩
      = some ((100 + 44) * (1 + 5 / 30)) :=
  (c4_one_rep_max_formula []
    [⟨0, some "Squat (Barbell)", 1, some 100, some 5⟩,
     ⟨0, some "Leg Press", 2, some 100, some 5⟩]
    ⟨0, some "Squat (Barbell)", 1, some 100, some 5⟩
    (by decide)).2.2.1 (by decide) (by decide) rfl rfl

/-- Claim C5: within each exercise_name group of the Strength Metric
Engine's output, cummax_one_rep_max is non-decreasing along increasing
date: for two output rows of the same exercise with dates d1 ≤ d2, both
cummax values are defined and the first is ≤ the second. -/
theorem c5_cummax_monotone (wt : List (ℕ × ℚ)) (data : List ExerciseRow)
    (r1 r2 : ScoredRow)
    (h1 : r1 ∈ wrangle_weightlifting_data wt data)
    (h2 : r2 ∈ wrangle_weightlifting_data wt data)
    (hn : r1.exercise_name = r2.exercise_name)
    (hd : r1.date ≤ r2.date) :
    ∃ c1 c2 : ℚ, r1.cummax_one_rep_max = some c1 ∧
      r2.cummax_one_rep_max = some c2 ∧ c1 ≤ c2 := by
  rcases mem_wrangle h1 with ⟨s1, hs1, he1, hk1⟩
  rcases mem_wrangle h2 with ⟨s2, hs2, he2, hk2⟩
  subst he1
  subst he2
  simp only at hn hd
  rcases keepRow_some hk1 with ⟨v1, hv1, _⟩
  rcases keepRow_some hk2 with ⟨v2, hv2, _⟩
  simp only at hv1 hv2
  rcases cummaxVal_defined hs1 hv1 (le_refl s1.date) with ⟨a1, c1, ha1, hc1, _⟩
  rcases cummaxVal_defined hs2 hv2 (le_refl s2.date) with ⟨a2, c2, ha2, hc2, _⟩
  refine ⟨c1, c2, ?_, ?_, ?_⟩
  · simp only [cummaxVal, ha1]
    exact hc1
  · simp only [cummaxVal, ha2]
    exact hc2
  · have hsub : ∀ x, x ∈ ((groupDates (calculate_1RM wt data)
        s1.exercise_name).filter (fun e => decide (e ≤ s1.date))).map
        (dailyMaxVal (calculate_1RM wt data) s1.exercise_name) →
        x ∈ ((groupDates (calculate_1RM wt data)
        s2.exercise_name).filter (fun e => decide (e ≤ s2.date))).map
        (dailyMaxVal (calculate_1RM wt data) s2.exercise_name) := by
      intro x hx
      rw [List.mem_map] at hx ⊢
      rcases hx with ⟨e, he, hxe⟩
      rw [List.mem_filter] at he
      refine ⟨e, ?_, by rw [← hn]; exact hxe⟩
      rw [List.mem_filter]
      refine ⟨by rw [← hn]; exact he.1, ?_⟩
      have he2 := he.2
      simp only [decide_eq_true_iff] at he2 ⊢
      exact le_trans he2 hd
    rcases oMaxList_mono hsub hc1 with ⟨b, hb, hcb⟩
    rw [hb] at hc2
    injection hc2 with hb2
    rw [← hb2]
    exact hcb

/-- Witness for C5 on the concrete two-day "Leg Press" output. -/
theorem c5_cummax_monotone_witness :
    ∃ c1 c2 : ℚ,
      (⟨1, "Leg Press", some 30, some 200, some 200, some 200⟩ :
        ScoredRow).cummax_one_rep_max = some c1 ∧
      (⟨2, "Leg Press", some 30, some 220, some 220, some 220⟩ :
        ScoredRow).cummax_one_rep_max = some c2 ∧ c1 ≤ c2 :=
  c5_cummax_monotone []
    [⟨1, some "Leg Press", 1, some 100, some 30⟩,
     ⟨2, some "Leg Press", 1, some 110, some 30⟩] _ _
    (by rw [wrangle_eval_two]; simp)
    (by rw [wrangle_eval_two]; simp)
    rfl (by norm_num)

/-- Claim C6: for every output row of the Strength Metric Engine, its
rolling_90d_max equals the maximum one_rep_max over ALL SETS of the same
exercise with date in the trailing calendar window [d-89, d] (skipping
undefined 1RMs), and that maximum is defined. -/
theorem c6_rolling_90d_window_max (wt : List (ℕ × ℚ))
    (data : List ExerciseRow) (r : ScoredRow)
    (hr : r ∈ wrangle_weightlifting_data wt data) :
    r.rolling_90d_max = oMaxList (((calculate_1RM wt data).filter
      (fun s => s.exercise_name == r.exercise_name &&
        (decide (r.date ≤ s.date + 89) && decide (s.date ≤ r.date)))).map
      (fun s => s.one_rep_max)) ∧ r.rolling_90d_max.isSome = true := by
  rcases mem_wrangle hr with ⟨s0, hs0, he, hk⟩
  subst he
  rcases keepRow_some hk with ⟨v0, hv0, _⟩
  simp only at hv0
  have hEq : rollingVal (calculate_1RM wt data) s0.exercise_name s0.date =
      oMaxList (((calculate_1RM wt data).filter
        (fun s => s.exercise_name == s0.exercise_name &&
          (decide (s0.date ≤ s.date + 89) && decide (s.date ≤ s0.date)))).map
        (fun s => s.one_rep_max)) := by
    unfold rollingVal
    apply oMaxList_eq_of_mutual
    · intro v hv
      rw [List.mem_map] at hv
      rcases hv with ⟨e, hemem, hve⟩
      rw [List.mem_filter] at hemem
      unfold dailyMaxVal at hve
      have hat := oMaxList_attain hve
      rw [List.mem_map] at hat
      rcases hat with ⟨s, hsmem, hsv⟩
      rw [List.mem_filter] at hsmem
      have hcond := hsmem.2
      simp only [Bool.and_eq_true, beq_iff_eq, decide_eq_true_iff] at hcond
      have hwin := hemem.2
      simp only [Bool.and_eq_true, decide_eq_true_iff] at hwin
      refine ⟨v, ?_, le_refl v⟩
      rw [List.mem_map]
      refine ⟨s, ?_, hsv⟩
      rw [List.mem_filter]
      refine ⟨hsmem.1, ?_⟩
      simp only [Bool.and_eq_true, beq_iff_eq, decide_eq_true_iff]
      exact ⟨hcond.1, by rw [hcond.2]; exact hwin.1,
        by rw [hcond.2]; exact hwin.2⟩
    · intro v hv
      rw [List.mem_map] at hv
      rcases hv with ⟨s, hsmem, hsv⟩
      rw [List.mem_filter] at hsmem
      have hcond := hsmem.2
      simp only [Bool.and_eq_true, beq_iff_eq, decide_eq_true_iff] at hcond
      rcases dailyMax_defined hsmem.1 hsv with ⟨a, ha, hva⟩
      refine ⟨a, ?_, hva⟩
      rw [List.mem_map]
      refine ⟨s.date, ?_, by rw [← hcond.1]; exact ha⟩
      rw [List.mem_filter]
      constructor
      · rw [← hcond.1]
        exact mem_groupDates hsmem.1
      · simp only [Bool.and_eq_true, decide_eq_true_iff]
        exact ⟨hcond.2.1, hcond.2.2⟩
  have hSome : ∃ b : ℚ, oMaxList (((calculate_1RM wt data).filter
      (fun s => s.exercise_name == s0.exercise_name &&
        (decide (s0.date ≤ s.date + 89) && decide (s.date ≤ s0.date)))).map
      (fun s => s.one_rep_max)) = some b := by
    have hmem : some v0 ∈ ((calculate_1RM wt data).filter
        (fun s => s.exercise_name == s0.exercise_name &&
          (decide (s0.date ≤ s.date + 89) && decide (s.date ≤ s0.date)))).map
        (fun s => s.one_rep_max) := by
      rw [List.mem_map]
      refine ⟨s0, ?_, hv0⟩
      rw [List.mem_filter]
      refine ⟨hs0, ?_⟩
      simp only [Bool.and_eq_true, beq_iff_eq, decide_eq_true_iff]
      exact ⟨trivial, by omega, le_refl s0.date⟩
    rcases oMaxList_mem_le hmem with ⟨b, hb, _⟩
    exact ⟨b, hb⟩
  rcases hSome with ⟨b, hb⟩
  constructor
  · exact hEq
  · simp only
    rw [hEq, hb]
    rfl

/-- Witness for C6 on the concrete two-day "Leg Press" output. -/
theorem c6_rolling_90d_window_max_witness :
    (⟨2, "Leg Press", some 30, some 220, some 220, some 220⟩ :
      ScoredRow).rolling_90d_max =
      oMaxList (((calculate_1RM []
        [⟨1, some "Leg Press", 1, some 100, some 30⟩,
         ⟨2, some "Leg Press", 1, some 110, some 30⟩]).filter
        (fun s => s.exercise_name ==
          (⟨2, "Leg Press", some 30, some 220, some 220, some 220⟩ :
            ScoredRow).exercise_name &&
          (decide ((⟨2, "Leg Press", some 30, some 220, some 220,
            some 220⟩ : ScoredRow).date ≤ s.date + 89) &&
           decide (s.date ≤ (⟨2, "Leg Press", some 30, some 220, some 220,
            some 220⟩ : ScoredRow).date)))).map
        (fun s => s.one_rep_max)) ∧
    (⟨2, "Leg Press", some 30, some 220, some 220, some 220⟩ :
      ScoredRow).rolling_90d_max.isSome = true :=
  c6_rolling_90d_window_max []
    [⟨1, some "Leg Press", 1, some 100, some 30⟩,
     ⟨2, some "Leg Press", 1, some 110, some 30⟩] _
    (by rw [wrangle_eval_two]; simp)

/-- Claim C7: for a non-empty scored-set input, the Volume Aggregator
returns one row per calendar date of [min observed date, max observed
date] with no gaps (length (max-min)+1); a date carries the sum of
one_rep_max over its sets (an empty sum, i.e. exactly 0, zero-fill, when
the date has no set). -/
theorem c7_volume_fill_complete (rows : List ScoredRow) (hne : rows ≠ []) :
    ∃ mn mx out, listMin (rows.map (fun r => r.date)) = some mn ∧
      listMax (rows.map (fun r => r.date)) = some mx ∧ mn ≤ mx ∧
      process_volume_data rows = .ok out ∧
      out.length = mx - mn + 1 ∧
      ∀ i (h : i < out.length),
        (out.get ⟨i, h⟩).1 = mn + i ∧
        (out.get ⟨i, h⟩).2 = ((rows.filter (fun r => r.date == mn + i)).map
          (fun r => r.one_rep_max.getD 0)).sum ∧
        ((¬ ∃ r ∈ rows, r.date = mn + i) → (out.get ⟨i, h⟩).2 = 0) := by
  have hdne : rows.map (fun r => r.date) ≠ [] := by
    intro hcon
    exact hne (List.map_eq_nil_iff.mp hcon)
  obtain ⟨mn, hmn⟩ : ∃ mn, listMin (rows.map (fun r => r.date)) = some mn := by
    cases h : listMin (rows.map (fun r => r.date)) with
    | none => exact absurd (listMin_eq_none_iff.mp h) hdne
    | some m => exact ⟨m, rfl⟩
  obtain ⟨mx, hmx⟩ : ∃ mx, listMax (rows.map (fun r => r.date)) = some mx := by
    cases h : listMax (rows.map (fun r => r.date)) with
    | none => exact absurd (listMax_eq_none_iff.mp h) hdne
    | some m => exact ⟨m, rfl⟩
  have hmnmx : mn ≤ mx := listMax_ge hmx (listMin_mem hmn)
  have hmemiff : ∀ x, x ∈ (wrangle_volume_data rows).map (fun p => p.1) ↔
      x ∈ rows.map (fun r => r.date) := by
    intro x
    rw [volume_keys, List.mem_dedup]
  have hmn2 : listMin ((wrangle_volume_data rows).map (fun p => p.1)) =
      some mn := by
    rw [listMin_eq_of_mem_iff hmemiff, hmn]
  have hmx2 : listMax ((wrangle_volume_data rows).map (fun p => p.1)) =
      some mx := by
    rw [listMax_eq_of_mem_iff hmemiff, hmx]
  refine ⟨mn, mx,
    ((List.range (mx + 1 - mn)).map (fun j => mn + j)).map
      (fun d => (d, (tblLookup d (wrangle_volume_data rows)).getD 0)),
    hmn, hmx, hmnmx, ?_, ?_, ?_⟩
  · unfold process_volume_data fill_missing_dates
    rw [hmn2, hmx2]
  · simp [List.length_map, List.length_range]
    omega
  · intro i h
    have hlen : i < mx + 1 - mn := by
      simpa [List.length_map, List.length_range] using h
    have hget : (((List.range (mx + 1 - mn)).map (fun j => mn + j)).map
        (fun d => (d, (tblLookup d (wrangle_volume_data rows)).getD 0))).get
          ⟨i, by simpa [List.length_map, List.length_range] using hlen⟩ =
        (mn + i, (tblLookup (mn + i) (wrangle_volume_data rows)).getD 0) := by
      simp [List.get_eq_getElem, List.getElem_map, List.getElem_range]
    constructor
    · rw [hget]
    constructor
    · rw [hget]
      have : tblLookup (mn + i) (wrangle_volume_data rows) =
          if (mn + i) ∈ (rows.map (fun r => r.date)).dedup then
            some (((rows.filter (fun r => r.date == mn + i)).map
              (fun r => r.one_rep_max.getD 0)).sum)
          else none := by
        unfold wrangle_volume_data
        exact tblLookup_keyed _ _ _
      rw [this]
      by_cases hmem : (mn + i) ∈ (rows.map (fun r => r.date)).dedup
      · rw [if_pos hmem]
        rfl
      · rw [if_neg hmem]
        have hfil : rows.filter (fun r => r.date == mn + i) = [] := by
          rw [List.filter_eq_nil_iff]
          intro r hrr hbeq
          apply hmem
          rw [List.mem_dedup, List.mem_map]
          exact ⟨r, hrr, by simpa using hbeq⟩
        rw [hfil]
        rfl
    · intro hnone
      rw [hget]
      have : tblLookup (mn + i) (wrangle_volume_data rows) =
          if (mn + i) ∈ (rows.map (fun r => r.date)).dedup then
            some (((rows.filter (fun r => r.date == mn + i)).map
              (fun r => r.one_rep_max.getD 0)).sum)
          else none := by
        unfold wrangle_volume_data
        exact tblLookup_keyed _ _ _
      rw [this, if_neg ?_]
      · rfl
      · intro hmem
        apply hnone
        rw [List.mem_dedup, List.mem_map] at hmem
        rcases hmem with ⟨r, hrr, hrd⟩
        exact ⟨r, hrr, hrd⟩

/-- Witness for C7: two sets, dates 10 and 12 with 1RMs 5 and 7, fill to
the three dates 10, 11, 12 with volumes 5, 0, 7. -/
theorem c7_volume_fill_complete_witness :
    ∃ mn mx out,
      listMin (([⟨10, "A", some 30, some 5, some 5, some 5⟩,
        ⟨12, "A", some 30, some 7, some 7, some 7⟩] :
          List ScoredRow).map (fun r => r.date)) = some mn ∧
      listMax (([⟨10, "A", some 30, some 5, some 5, some 5⟩,
        ⟨12, "A", some 30, some 7, some 7, some 7⟩] :
          List ScoredRow).map (fun r => r.date)) = some mx ∧ mn ≤ mx ∧
      process_volume_data
        [⟨10, "A", some 30, some 5, some 5, some 5⟩,
         ⟨12, "A", some 30, some 7, some 7, some 7⟩] = .ok out ∧
      out.length = mx - mn + 1 ∧
      ∀ i (h : i < out.length),
        (out.get ⟨i, h⟩).1 = mn + i ∧
        (out.get ⟨i, h⟩).2 =
          ((([⟨10, "A", some 30, some 5, some 5, some 5⟩,
            ⟨12, "A", some 30, some 7, some 7, some 7⟩] :
              List ScoredRow).filter
            (fun r => r.date == mn + i)).map
            (fun r => r.one_rep_max.getD 0)).sum ∧
        ((¬ ∃ r ∈ ([⟨10, "A", some 30, some 5, some 5, some 5⟩,
            ⟨12, "A", some 30, some 7, some 7, some 7⟩] :
              List ScoredRow), r.date = mn + i) →
          (out.get ⟨i, h⟩).2 = 0) :=
  c7_volume_fill_complete
    [⟨10, "A", some 30, some 5, some 5, some 5⟩,
     ⟨12, "A", some 30, some 7, some 7, some 7⟩] (by decide)

/-- Claim C2 (counterexample): on an empty observations input the
Reconciler does fail, but with the pandas `ValueError` raised by
`pd.date_range` on NaT bounds — there is no `EmptyInputError` anywhere
in the source, so it cannot be (and is not) the raised error. -/
theorem c2_empty_input_value_error :
    fill_missing_dates ([] : List (ℕ × ℚ)) = .error .valueError ∧
    PdError.valueError ≠ PdError.emptyInputError := by
  constructor
  · rfl
  · decide

/-- Claim C2 (amended): both Reconciler entry points (`fill_missing_dates`
and `join_dates`) raise an error exactly when the observations input has
zero rows, and the error raised is the pandas `ValueError` (from
`pd.date_range` with NaT bounds), never an `EmptyInputError`, which the
code does not define. -/
theorem c2_reconciler_error_iff_empty (data : List (ℕ × ℚ)) (today : ℕ)
    (obs : List (DateVal × ℚ)) :
    ((fill_missing_dates data = .error .valueError) ↔ data = []) ∧
    fill_missing_dates data ≠ .error .emptyInputError ∧
    (((join_dates today obs).2 = .error .valueError) ↔ obs = []) ∧
    (join_dates today obs).2 ≠ .error .emptyInputError := by
  refine ⟨?_, ?_, ?_, ?_⟩
  · by_cases hd : data = []
    · subst hd
      simp [fill_missing_dates, listMin, listMax]
    · have hdne : data.map (fun p : ℕ × ℚ => p.1) ≠ [] := by
        intro hcon
        exact hd (List.map_eq_nil_iff.mp hcon)
      obtain ⟨mn, hmn⟩ : ∃ mn, listMin (data.map (fun p : ℕ × ℚ => p.1)) =
          some mn := by
        cases h : listMin (data.map (fun p : ℕ × ℚ => p.1)) with
        | none => exact absurd (listMin_eq_none_iff.mp h) hdne
        | some m => exact ⟨m, rfl⟩
      obtain ⟨mx, hmx⟩ : ∃ mx, listMax (data.map (fun p : ℕ × ℚ => p.1)) =
          some mx := by
        cases h : listMax (data.map (fun p : ℕ × ℚ => p.1)) with
        | none => exact absurd (listMax_eq_none_iff.mp h) hdne
        | some m => exact ⟨m, rfl⟩
      unfold fill_missing_dates
      rw [hmn, hmx]
      simp [hd]
  · by_cases hd : data = []
    · subst hd
      simp [fill_missing_dates, listMin, listMax]
    · have hdne : data.map (fun p : ℕ × ℚ => p.1) ≠ [] := by
        intro hcon
        exact hd (List.map_eq_nil_iff.mp hcon)
      obtain ⟨mn, hmn⟩ : ∃ mn, listMin (data.map (fun p : ℕ × ℚ => p.1)) =
          some mn := by
        cases h : listMin (data.map (fun p : ℕ × ℚ => p.1)) with
        | none => exact absurd (listMin_eq_none_iff.mp h) hdne
        | some m => exact ⟨m, rfl⟩
      obtain ⟨mx, hmx⟩ : ∃ mx, listMax (data.map (fun p : ℕ × ℚ => p.1)) =
          some mx := by
        cases h : listMax (data.map (fun p : ℕ × ℚ => p.1)) with
        | none => exact absurd (listMax_eq_none_iff.mp h) hdne
        | some m => exact ⟨m, rfl⟩
      unfold fill_missing_dates
      rw [hmn, hmx]
      simp
  · by_cases ho : obs = []
    · subst ho
      simp [join_dates, listMin]
    · have hone : obs.map (fun p : DateVal × ℚ => dayOf p.1) ≠ [] := by
        intro hcon
        exact ho (List.map_eq_nil_iff.mp hcon)
      obtain ⟨mn, hmn⟩ : ∃ mn,
          listMin (obs.map (fun p : DateVal × ℚ => dayOf p.1)) = some mn := by
        cases h : listMin (obs.map (fun p : DateVal × ℚ => dayOf p.1)) with
        | none => exact absurd (listMin_eq_none_iff.mp h) hone
        | some m => exact ⟨m, rfl⟩
      unfold join_dates
      rw [hmn]
      simp [ho]
  · by_cases ho : obs = []
    · subst ho
      simp [join_dates, listMin]
    · have hone : obs.map (fun p : DateVal × ℚ => dayOf p.1) ≠ [] := by
        intro hcon
        exact ho (List.map_eq_nil_iff.mp hcon)
      obtain ⟨mn, hmn⟩ : ∃ mn,
          listMin (obs.map (fun p : DateVal × ℚ => dayOf p.1)) = some mn := by
        cases h : listMin (obs.map (fun p : DateVal × ℚ => dayOf p.1)) with
        | none => exact absurd (listMin_eq_none_iff.mp h) hone
        | some m => exact ⟨m, rfl⟩
      unfold join_dates
      rw [hmn]
      simp

/-- Witness for the amended C2: a one-row input yields no error of either
kind; the empty input yields the ValueError. -/
theorem c2_reconciler_error_iff_empty_witness :
    fill_missing_dates ([(3, 5)] : List (ℕ × ℚ)) ≠
      .error .emptyInputError :=
  (c2_reconciler_error_iff_empty [(3, 5)] 0 []).2.1

/-- Claim C9 (counterexample): `join_dates` DOES mutate its input: line
104 (`data["date"] = pd.to_datetime(data["date"])`) overwrites the
caller's date column in place, converting `datetime.date` entries to
Timestamps, so an input whose date column holds a `datetime.date` is not
unchanged after the call. -/
theorem c9_join_dates_mutates_input :
    (join_dates 6 [(DateVal.rawDate 5, (3 : ℚ))]).1 ≠
      [(DateVal.rawDate 5, (3 : ℚ))] := by
  decide

/-- Claim C9 (amended): the only mutation `join_dates` performs on its
input is the in-place `pd.to_datetime` conversion of the date column
(every date entry becomes the corresponding Timestamp); all other column
values and the row order are unchanged, and an already-converted input is
left intact. -/
theorem c9_join_dates_mutation_only_date_column (α : Type) (today : ℕ)
    (data : List (DateVal × α)) :
    (join_dates today data).1 = data.map (fun p => (toDatetime p.1, p.2)) := by
  unfold join_dates
  cases h : listMin (data.map (fun p => dayOf p.1)) with
  | none =>
    have hd : data = [] := List.map_eq_nil_iff.mp (listMin_eq_none_iff.mp h)
    subst hd
    rfl
  | some mn => rfl
